import Mathlib

/-!
Verification of the DNS reconciliation engine in `src/process_dns.py`.

The engine reads pending change requests (rows with `processed = false`),
normalizes each into a Cloudflare payload, dispatches on the `perform`
field (create / update / delete), and marks the row processed exactly when
the final provider response is judged successful.  The Python loop builds
the payload (including MX-content parsing) *before* its `try:` block, so a
`ValueError` raised there escapes the per-record exception handler and
aborts the whole pass; the model below reproduces that control flow
faithfully via the `Outcome.aborted` case.

The provider (Cloudflare HTTP API) and the record store (Supabase) are
external collaborators; they are modelled as oracles: a `Provider` maps
each call the engine can make to either a returned `Response` (status code
plus the optional JSON `success` field) or a raised exception
(`Except.error`).
-/

deriving instance DecidableEq for Except

namespace DnsSync

/-- A change-request row fetched from the store with `processed = false`.
Field `rtype` embeds the row's `type` column (`type` is a Lean keyword).
`Option` fields model dictionary keys read with `.get(key, default)`;
required fields model `record[key]` subscripts that are always present. -/
structure DnsRecord where
  id : Nat
  perform : Option String
  rtype : String
  name : String
  content : String
  ttl : Option Nat
  proxied : Option Bool
deriving DecidableEq, Repr

/-- The JSON body the engine submits to the provider (`data` in the source):
`priority` is set only for MX records. -/
structure Payload where
  ptype : String
  name : String
  ttl : Nat
  proxied : Bool
  content : String
  priority : Option Int
deriving DecidableEq, Repr

/-- A provider HTTP response: the status code and the JSON body's optional
`success` field (`none` when the body has no such key). -/
structure Response where
  statusCode : Nat
  success : Option Bool
deriving DecidableEq, Repr

/-- One provider API call made by the engine. -/
inductive Call where
  | create (data : Payload)
  | find (name : String)
  | put (cfId : String) (data : Payload)
  | del (cfId : String)
deriving DecidableEq, Repr

/-- Provider oracle: for each possible call, either the response returned
or `Except.error ()` for a raised exception (transport error, bad JSON).
`findResp` returns the list of ids in the lookup response's `result`. -/
structure Provider where
  createResp : Payload → Except Unit Response
  findResp : String → Except Unit (List String)
  putResp : String → Payload → Except Unit Response
  delResp : String → Except Unit Response

/-- What happened to one record in the loop body:
`marked` = success path, row updated to `processed = true`;
`failed` = final response judged unsuccessful, row left pending;
`skipped` = a `continue` (lookup miss or unknown perform), row left pending;
`caught` = exception caught by the per-record handler, row left pending;
`aborted` = uncaught exception (MX parse error raised before `try:`),
the loop and the whole pass stop. -/
inductive Outcome where
  | marked
  | failed
  | skipped
  | caught
  | aborted
deriving DecidableEq, Repr

/-- Python's `s.upper()` as used on record types: uppercase each character
(ASCII case mapping). -/
def strUpper (s : String) : String :=
  String.mk (s.data.map Char.toUpper)

/-- Python's `s.lower()` as used on the `perform` field: lowercase each
character (ASCII case mapping). -/
def strLower (s : String) : String :=
  String.mk (s.data.map Char.toLower)

/-- Split a character list at the first space, mirroring
`content.split(" ", 1)`: `none` when no space occurs (so `parts[1]` would
raise `IndexError`). -/
def splitFirstSpace : List Char → Option (List Char × List Char)
  | [] => none
  | c :: rest =>
    if c = ' ' then some ([], rest)
    else
      match splitFirstSpace rest with
      | none => none
      | some (a, b) => some (c :: a, b)

/-- Decimal value of a digit list. -/
def digitsVal (ds : List Char) : Nat :=
  ds.foldl (fun a c => a * 10 + (c.toNat - 48)) 0

/-- Python's `int(s)` on the strings that can reach it here (`parts[0]` of a
split never contains a space): an optional sign followed by one or more
decimal digits parses; anything else raises, modelled as `none`. -/
def pyInt (s : String) : Option Int :=
  match s.data with
  | [] => none
  | '+' :: ds =>
    if ds ≠ [] ∧ ds.all (fun c => c.isDigit) then some (digitsVal ds) else none
  | '-' :: ds =>
    if ds ≠ [] ∧ ds.all (fun c => c.isDigit) then some (-(digitsVal ds : Int)) else none
  | ds =>
    if ds.all (fun c => c.isDigit) then some (digitsVal ds) else none

/-- `parse_mx_content` from the source: split `content` on the first space
into an integer priority and the target host; `none` models the raised
`ValueError` (missing separator or non-integer first part). -/
def parse_mx_content (content : String) : Option (Int × String) :=
  match splitFirstSpace content.data with
  | none => none
  | some (pre, post) => (pyInt (String.mk pre)).map (fun n => (n, String.mk post))

/-- `fix_proxied` from the source: force `proxied = false` for record types
that may not be proxied. -/
def fix_proxied (record_type : String) (proxied : Bool) : Bool :=
  if record_type = "MX" ∨ record_type = "TXT" ∨ record_type = "NS" then false
  else proxied

/-- Python's `name.endswith(zone)`: the zone's characters are a suffix of
the name's characters. -/
def endswith (s suffix : String) : Bool :=
  List.isSuffixOf suffix.data s.data

/-- `full_name_for_cf` from the source: append the zone name unless the
record name already ends with it.  The source reads the zone from the
global `ZONE_NAME`; here it is an explicit argument. -/
def full_name_for_cf (zone : String) (name : String) : String :=
  if endswith name zone then name else name ++ "." ++ zone

/-- `content.startswith(CHR_QUOTE)` with a one-character pattern: true iff the
first character is a double quote. -/
def startswithQuote (s : String) : Bool :=
  match s.data with
  | [] => false
  | c :: _ => c = '"'

/-- `content.endswith(CHR_QUOTE)` with a one-character pattern: true iff the
last character is a double quote. -/
def endswithQuote (s : String) : Bool :=
  match s.data.getLast? with
  | none => false
  | some c => c = '"'

/-- The TXT branch of the payload construction: wrap `content` in double
quotes unless it already starts and ends with one. -/
def quoteTxt (content : String) : String :=
  if startswithQuote content && endswithQuote content then content
  else "\"" ++ content ++ "\""

/-- Lines 60-84 of `process_dns.py`: uppercase the type, normalize
`proxied`, build the base payload with the record name as given, then the
type-specific content handling.  `none` models the `ValueError` that
`parse_mx_content` raises for malformed MX content; this code runs before
the `try:` block, so that error is uncaught. -/
def buildPayload (r : DnsRecord) : Option Payload :=
  let rtype := strUpper r.rtype
  let proxied := fix_proxied rtype (r.proxied.getD false)
  let base : Payload :=
    { ptype := rtype, name := r.name, ttl := r.ttl.getD 3600,
      proxied := proxied, content := "", priority := none }
  if rtype = "MX" then
    match parse_mx_content r.content with
    | none => none
    | some (p, host) => some { base with priority := some p, content := host }
  else if rtype = "TXT" then
    some { base with content := quoteTxt r.content }
  else
    some { base with content := r.content }

/-- Line 145 of the source: the final response is judged successful when
`resp.status_code == 200 and resp.json().get("success", True)`. -/
def respSuccess (resp : Response) : Bool :=
  resp.statusCode == 200 && resp.success.getD true

/-- Lines 145-150: mark the row processed on a successful final response,
otherwise log the failure and leave it pending. -/
def markOf (resp : Response) : Outcome :=
  if respSuccess resp then Outcome.marked else Outcome.failed

/-- Result of one iteration of the loop: the provider calls made in order,
the response whose success decides marking (the `resp` live at line 145,
`none` when control never reaches it), and the outcome. -/
structure RecResult where
  calls : List Call
  finalResp : Option Response
  outcome : Outcome
deriving DecidableEq, Repr

/-- The create branch (lines 88-101): post the payload once; when the
response's JSON `success` is not truthy and the normalized `proxied` was
true, retry exactly once with `proxied` set to false; the last response
obtained is the one judged at line 145. -/
def createStep (prov : Provider) (data : Payload) : RecResult :=
  match prov.createResp data with
  | Except.error _ => ⟨[Call.create data], none, Outcome.caught⟩
  | Except.ok resp =>
    if (resp.success != some true) && data.proxied then
      let data2 := { data with proxied := false }
      match prov.createResp data2 with
      | Except.error _ =>
        ⟨[Call.create data, Call.create data2], none, Outcome.caught⟩
      | Except.ok resp2 =>
        ⟨[Call.create data, Call.create data2], some resp2, markOf resp2⟩
    else ⟨[Call.create data], some resp, markOf resp⟩

/-- The update branch (lines 104-120): look up the normalized full name,
`continue` when the lookup's `result` list is empty, otherwise PUT the
payload (with the full name substituted) at the first returned id. -/
def updateStep (prov : Provider) (record_name : String) (data : Payload) : RecResult :=
  match prov.findResp record_name with
  | Except.error _ => ⟨[Call.find record_name], none, Outcome.caught⟩
  | Except.ok [] => ⟨[Call.find record_name], none, Outcome.skipped⟩
  | Except.ok (cfId :: _) =>
    let data2 := { data with name := record_name }
    match prov.putResp cfId data2 with
    | Except.error _ =>
      ⟨[Call.find record_name, Call.put cfId data2], none, Outcome.caught⟩
    | Except.ok resp =>
      ⟨[Call.find record_name, Call.put cfId data2], some resp, markOf resp⟩

/-- The delete branch (lines 123-138): look up the normalized full name,
`continue` when the lookup's `result` list is empty, otherwise DELETE the
first returned id. -/
def deleteStep (prov : Provider) (record_name : String) : RecResult :=
  match prov.findResp record_name with
  | Except.error _ => ⟨[Call.find record_name], none, Outcome.caught⟩
  | Except.ok [] => ⟨[Call.find record_name], none, Outcome.skipped⟩
  | Except.ok (cfId :: _) =>
    match prov.delResp cfId with
    | Except.error _ =>
      ⟨[Call.find record_name, Call.del cfId], none, Outcome.caught⟩
    | Except.ok resp =>
      ⟨[Call.find record_name, Call.del cfId], some resp, markOf resp⟩

/-- One iteration of the record loop (lines 59-153 of `process_dns.py`).
The payload is built before the `try:` block, so an MX parse error yields
`Outcome.aborted` with no provider call; inside the `try:`, the dispatch
on the lowercased `perform` field selects the branch, and an unknown
`perform` is logged and `continue`d with no provider call. -/
def processRecord (zone : String) (prov : Provider) (r : DnsRecord) : RecResult :=
  let perform := strLower (r.perform.getD "create")
  match buildPayload r with
  | none => ⟨[], none, Outcome.aborted⟩
  | some data =>
    if perform = "create" then
      createStep prov data
    else if perform = "update" then
      updateStep prov (full_name_for_cf zone r.name) data
    else if perform = "delete" then
      deleteStep prov (full_name_for_cf zone r.name)
    else
      ⟨[], none, Outcome.skipped⟩

/-- The fate of one pending row after a pass: its final `processed` flag,
the provider calls made for it, and the response that decided marking.
Rows never reached (because an earlier row aborted the pass) keep
`processed = false` with no calls. -/
structure PassEntry where
  record : DnsRecord
  processed : Bool
  calls : List Call
  finalResp : Option Response
deriving DecidableEq, Repr

/-- The whole pass over the pending rows, in store order.  An `aborted`
outcome (uncaught exception) stops the loop: the aborting row and every
later row stay pending and make no further provider calls. -/
def runPass (zone : String) (prov : Provider) : List DnsRecord → List PassEntry
  | [] => []
  | r :: rest =>
    let res := processRecord zone prov r
    if res.outcome = Outcome.aborted then
      ⟨r, false, res.calls, res.finalResp⟩ ::
        rest.map (fun x => ⟨x, false, [], none⟩)
    else
      ⟨r, decide (res.outcome = Outcome.marked), res.calls, res.finalResp⟩ ::
        runPass zone prov rest

/-! ### Concrete scenarios (providers and records) used by witnesses -/

/-- A provider on which every call succeeds; name lookups return two
matching records. -/
def provAllOk : Provider where
  createResp := fun _ => Except.ok ⟨200, some true⟩
  findResp := fun _ => Except.ok ["rid1", "rid2"]
  putResp := fun _ _ => Except.ok ⟨200, some true⟩
  delResp := fun _ => Except.ok ⟨200, some true⟩

/-- A provider that rejects proxied create payloads (HTTP 200 with
`success: false`) and accepts everything else. -/
def provRejectProxied : Provider where
  createResp := fun p =>
    if p.proxied then Except.ok ⟨200, some false⟩ else Except.ok ⟨200, some true⟩
  findResp := fun _ => Except.ok ["rid1"]
  putResp := fun _ _ => Except.ok ⟨200, some true⟩
  delResp := fun _ => Except.ok ⟨200, some true⟩

/-- A provider whose name lookups find nothing. -/
def provNoMatch : Provider where
  createResp := fun _ => Except.ok ⟨200, some true⟩
  findResp := fun _ => Except.ok []
  putResp := fun _ _ => Except.ok ⟨200, some true⟩
  delResp := fun _ => Except.ok ⟨200, some true⟩

/-- An MX create request with malformed content (no space separator). -/
def mxBadRec : DnsRecord :=
  ⟨1, some "create", "MX", "mail", "mail.example.com", none, none⟩

/-- A plain A-record create request. -/
def aCreateRec : DnsRecord :=
  ⟨2, some "create", "A", "www", "1.2.3.4", none, some false⟩

/-- The payload the engine builds for `aCreateRec`. -/
def aCreatePayload : Payload := ⟨"A", "www", 3600, false, "1.2.3.4", none⟩

/-- An update request (lowercase type, mixed-case perform, explicit ttl). -/
def updRec : DnsRecord :=
  ⟨3, some "Update", "a", "www", "5.6.7.8", some 300, some false⟩

/-- The payload submitted for `updRec` after name normalization. -/
def updPayloadFull : Payload := ⟨"A", "www.example.com", 300, false, "5.6.7.8", none⟩

/-- A delete request for the same name. -/
def delRec : DnsRecord :=
  ⟨4, some "delete", "A", "www", "5.6.7.8", none, none⟩

/-- A proxied A-record create request, for the retry claim. -/
def aProxRec : DnsRecord :=
  ⟨5, some "create", "A", "app", "9.9.9.9", none, some true⟩

/-- The payload the engine builds for `aProxRec`. -/
def aProxPayload : Payload := ⟨"A", "app", 3600, true, "9.9.9.9", none⟩

/-- A request with an unknown perform value and a well-formed payload. -/
def unkRec : DnsRecord :=
  ⟨6, some "Archive", "A", "cdn", "8.8.8.8", none, none⟩

/-- A request with an unknown perform value and malformed MX content. -/
def unkMxBadRec : DnsRecord :=
  ⟨7, some "archive", "MX", "mx2", "mailhost", none, none⟩

/-- A proxied TXT create request, for the proxy-coercion claim. -/
def txtProxRec : DnsRecord :=
  ⟨8, some "create", "TXT", "note", "hello", none, some true⟩

/-! ### Helper lemmas about one loop iteration -/

set_option maxHeartbeats 2000000 in
theorem processRecord_marked_iff (zone : String) (prov : Provider) (r : DnsRecord) :
    (processRecord zone prov r).outcome = Outcome.marked ↔
      ∃ resp, (processRecord zone prov r).finalResp = some resp ∧
        respSuccess resp = true := by
  unfold processRecord createStep updateStep deleteStep markOf
  repeat' split
  all_goals try simp_all
  all_goals repeat' split
  all_goals simp_all

set_option maxHeartbeats 2000000 in
theorem processRecord_aborted_iff (zone : String) (prov : Provider) (r : DnsRecord) :
    (processRecord zone prov r).outcome = Outcome.aborted ↔ buildPayload r = none := by
  unfold processRecord createStep updateStep deleteStep markOf
  repeat' split
  all_goals try simp_all
  all_goals repeat' split
  all_goals simp_all

theorem processRecord_aborted_shape (zone : String) (prov : Provider) (r : DnsRecord)
    (h : buildPayload r = none) :
    processRecord zone prov r = ⟨[], none, Outcome.aborted⟩ := by
  unfold processRecord
  rw [h]

theorem splitFirstSpace_of_not_mem (l : List Char) (h : ' ' ∉ l) :
    splitFirstSpace l = none := by
  induction l with
  | nil => rfl
  | cons c rest ih =>
    have h1 : ¬ c = ' ' := fun hc => h (by simp [hc])
    have h2 : ' ' ∉ rest := fun hr => h (List.mem_cons_of_mem _ hr)
    unfold splitFirstSpace
    rw [if_neg h1, ih h2]

theorem splitFirstSpace_append (pre post : List Char) (h : ' ' ∉ pre) :
    splitFirstSpace (pre ++ ' ' :: post) = some (pre, post) := by
  induction pre with
  | nil => simp [splitFirstSpace]
  | cons c rest ih =>
    have h1 : ¬ c = ' ' := fun hc => h (by simp [hc])
    have h2 : ' ' ∉ rest := fun hr => h (List.mem_cons_of_mem _ hr)
    simp only [List.cons_append]
    unfold splitFirstSpace
    rw [if_neg h1, ih h2]

theorem buildPayload_fields (r : DnsRecord) (data : Payload)
    (hb : buildPayload r = some data) :
    data.ptype = strUpper r.rtype ∧ data.name = r.name ∧
    data.ttl = r.ttl.getD 3600 ∧
    data.proxied = fix_proxied (strUpper r.rtype) (r.proxied.getD false) := by
  unfold buildPayload at hb
  by_cases hmx : strUpper r.rtype = "MX"
  · rw [if_pos hmx] at hb
    cases hp : parse_mx_content r.content with
    | none => rw [hp] at hb; simp at hb
    | some ph =>
      obtain ⟨p, host⟩ := ph
      rw [hp] at hb
      dsimp only at hb
      simp only [Option.some.injEq] at hb
      subst hb
      simp
  · rw [if_neg hmx] at hb
    by_cases ht : strUpper r.rtype = "TXT"
    · rw [if_pos ht] at hb
      simp only [Option.some.injEq] at hb
      subst hb
      simp
    · rw [if_neg ht] at hb
      simp only [Option.some.injEq] at hb
      subst hb
      simp

theorem buildPayload_txt_content (r : DnsRecord) (data : Payload)
    (hb : buildPayload r = some data) (ht : strUpper r.rtype = "TXT") :
    data.content = quoteTxt r.content := by
  unfold buildPayload at hb
  rw [if_neg (by rw [ht]; decide), if_pos ht] at hb
  simp only [Option.some.injEq] at hb
  subst hb
  simp

theorem quoted_data (s : String) :
    ("\"" ++ s ++ "\"").data = '"' :: (s.data ++ ['"']) := by
  rw [String.data_append, String.data_append]
  rfl

theorem startswithQuote_quoted (s : String) :
    startswithQuote ("\"" ++ s ++ "\"") = true := by
  unfold startswithQuote
  rw [quoted_data]
  rfl

theorem endswithQuote_quoted (s : String) :
    endswithQuote ("\"" ++ s ++ "\"") = true := by
  unfold endswithQuote
  rw [quoted_data]
  rw [show '"' :: (s.data ++ ['"']) = ('"' :: s.data) ++ ['"'] from rfl]
  rw [List.getLast?_concat]
  rfl

theorem createStep_calls_names (prov : Provider) (data : Payload) :
    ∀ c ∈ (createStep prov data).calls,
      ∃ p : Payload, c = Call.create p ∧ p.name = data.name := by
  unfold createStep
  cases hcr : prov.createResp data with
  | error e =>
    intro c hc
    simp at hc
    exact ⟨data, hc, rfl⟩
  | ok resp =>
    dsimp only
    by_cases hcond : ((resp.success != some true) && data.proxied) = true
    · rw [if_pos hcond]
      cases hcr2 : prov.createResp { data with proxied := false } with
      | error e =>
        intro c hc
        simp at hc
        rcases hc with hc | hc
        · exact ⟨data, hc, rfl⟩
        · exact ⟨{ data with proxied := false }, hc, rfl⟩
      | ok resp2 =>
        intro c hc
        simp at hc
        rcases hc with hc | hc
        · exact ⟨data, hc, rfl⟩
        · exact ⟨{ data with proxied := false }, hc, rfl⟩
    · rw [if_neg hcond]
      intro c hc
      simp at hc
      exact ⟨data, hc, rfl⟩

theorem updateStep_head_find (prov : Provider) (rn : String) (data : Payload) :
    (updateStep prov rn data).calls.head? = some (Call.find rn) := by
  unfold updateStep
  split
  · rfl
  · rfl
  · dsimp only
    split <;> rfl

theorem deleteStep_head_find (prov : Provider) (rn : String) :
    (deleteStep prov rn).calls.head? = some (Call.find rn) := by
  unfold deleteStep
  split
  · rfl
  · rfl
  · split <;> rfl

theorem processRecord_create_eq (zone : String) (prov : Provider) (r : DnsRecord)
    (data : Payload) (hb : buildPayload r = some data)
    (hp : strLower (r.perform.getD "create") = "create") :
    processRecord zone prov r = createStep prov data := by
  simp [processRecord, hb, hp]

theorem processRecord_update_eq (zone : String) (prov : Provider) (r : DnsRecord)
    (data : Payload) (hb : buildPayload r = some data)
    (hp : strLower (r.perform.getD "create") = "update") :
    processRecord zone prov r = updateStep prov (full_name_for_cf zone r.name) data := by
  simp [processRecord, hb, hp]

theorem processRecord_delete_eq (zone : String) (prov : Provider) (r : DnsRecord)
    (data : Payload) (hb : buildPayload r = some data)
    (hp : strLower (r.perform.getD "create") = "delete") :
    processRecord zone prov r = deleteStep prov (full_name_for_cf zone r.name) := by
  simp [processRecord, hb, hp]

theorem processRecord_unknown_eq (zone : String) (prov : Provider) (r : DnsRecord)
    (data : Payload) (hb : buildPayload r = some data)
    (h1 : strLower (r.perform.getD "create") ≠ "create")
    (h2 : strLower (r.perform.getD "create") ≠ "update")
    (h3 : strLower (r.perform.getD "create") ≠ "delete") :
    processRecord zone prov r = ⟨[], none, Outcome.skipped⟩ := by
  simp [processRecord, hb, h1, h2, h3]

theorem runPass_cons_ok (zone : String) (prov : Provider) (r : DnsRecord)
    (rest : List DnsRecord) (h : (processRecord zone prov r).outcome ≠ Outcome.aborted) :
    runPass zone prov (r :: rest) =
      ⟨r, decide ((processRecord zone prov r).outcome = Outcome.marked),
        (processRecord zone prov r).calls, (processRecord zone prov r).finalResp⟩ ::
        runPass zone prov rest := by
  rw [runPass]
  simp only [if_neg h]

theorem runPass_cons_aborted (zone : String) (prov : Provider) (r : DnsRecord)
    (rest : List DnsRecord) (h : (processRecord zone prov r).outcome = Outcome.aborted) :
    runPass zone prov (r :: rest) =
      ⟨r, false, (processRecord zone prov r).calls, (processRecord zone prov r).finalResp⟩ ::
        rest.map (fun x => ⟨x, false, [], none⟩) := by
  rw [runPass]
  simp only [if_pos h]

/-! ### Claim C1 -/

/-- Claim C1: a pending request handled in a pass ends the pass with
`processed = true` exactly when the provider returned a response for the
corresponding final create/update/delete call and that response is judged
successful (`status == 200` and JSON `success` not falsy); on any failure
(exception, lookup miss, unknown perform, unsuccessful response, or an
abort earlier in the pass) the flag stays false and the row stays pending. -/
theorem c1_processed_iff_provider_success (zone : String) (prov : Provider)
    (pending : List DnsRecord) (e : PassEntry) (he : e ∈ runPass zone prov pending) :
    e.processed = true ↔
      ∃ resp, e.finalResp = some resp ∧ respSuccess resp = true := by
  induction pending with
  | nil => simp [runPass] at he
  | cons r rest ih =>
    by_cases h : (processRecord zone prov r).outcome = Outcome.aborted
    · rw [runPass_cons_aborted zone prov r rest h] at he
      rcases List.mem_cons.mp he with he1 | he2
      · have hb : buildPayload r = none := (processRecord_aborted_iff zone prov r).mp h
        rw [processRecord_aborted_shape zone prov r hb] at he1
        subst he1
        simp
      · rcases List.mem_map.mp he2 with ⟨x, _, hx⟩
        rw [← hx]
        simp
    · rw [runPass_cons_ok zone prov r rest h] at he
      rcases List.mem_cons.mp he with he1 | he2
      · subst he1
        simpa [decide_eq_true_eq] using processRecord_marked_iff zone prov r
      · exact ih he2

/-- Witness for C1: in a one-request pass against a fully successful
provider, the request's entry carries a successful final response. -/
theorem c1_witness :
    ∃ resp,
      (⟨aCreateRec, true, [Call.create aCreatePayload], some ⟨200, some true⟩⟩ :
          PassEntry).finalResp = some resp ∧ respSuccess resp = true :=
  (c1_processed_iff_provider_success "example.com" provAllOk [aCreateRec]
      ⟨aCreateRec, true, [Call.create aCreatePayload], some ⟨200, some true⟩⟩
      (by decide)).mp (by decide)

/-! ### Claim C2 -/

/-- Claim C2 (code bug): isolation fails for MX validation errors.  The
payload is built before the `try:` block, so the `ValueError` raised for
the malformed MX content of the first request aborts the pass: the second
request is never attempted (no calls, no final response, not marked), even
though the same request run alone succeeds and is marked processed. -/
theorem c2_mx_validation_aborts_pass :
    runPass "example.com" provAllOk [mxBadRec, aCreateRec] =
      [⟨mxBadRec, false, [], none⟩, ⟨aCreateRec, false, [], none⟩] ∧
    runPass "example.com" provAllOk [aCreateRec] =
      [⟨aCreateRec, true, [Call.create aCreatePayload], some ⟨200, some true⟩⟩] := by
  exact ⟨by decide, by decide⟩

/-! ### Claim C3 -/

/-- Counterexample to C3 as stated: the lookup for `updRec`'s normalized
name returns two matches, yet the engine does not treat this as a failure.
For update it PUTs against the first match and marks the request processed;
for delete it likewise deletes the first match and marks it processed. -/
theorem c3_counterexample :
    provAllOk.findResp "www.example.com" = Except.ok ["rid1", "rid2"] ∧
    processRecord "example.com" provAllOk updRec =
      ⟨[Call.find "www.example.com", Call.put "rid1" updPayloadFull],
        some ⟨200, some true⟩, Outcome.marked⟩ ∧
    processRecord "example.com" provAllOk delRec =
      ⟨[Call.find "www.example.com", Call.del "rid1"],
        some ⟨200, some true⟩, Outcome.marked⟩ := by
  exact ⟨by decide, by decide, by decide⟩

/-- Claim C3 (amended): for every update or delete request whose name
lookup returns one or more matches, the engine does not flag multiplicity:
it submits the replace (resp. delete) call against the first id of the
lookup result, and the fate of the request is decided by that call's
response exactly as for a unique match. -/
theorem c3_first_match_submitted (zone : String) (prov : Provider) (r : DnsRecord)
    (data : Payload) (cfId : String) (rest : List String)
    (hb : buildPayload r = some data)
    (hf : prov.findResp (full_name_for_cf zone r.name) = Except.ok (cfId :: rest)) :
    (strLower (r.perform.getD "create") = "update" →
      processRecord zone prov r =
        (match prov.putResp cfId { data with name := full_name_for_cf zone r.name } with
         | Except.error _ =>
           ⟨[Call.find (full_name_for_cf zone r.name),
             Call.put cfId { data with name := full_name_for_cf zone r.name }],
             none, Outcome.caught⟩
         | Except.ok resp =>
           ⟨[Call.find (full_name_for_cf zone r.name),
             Call.put cfId { data with name := full_name_for_cf zone r.name }],
             some resp, markOf resp⟩)) ∧
    (strLower (r.perform.getD "create") = "delete" →
      processRecord zone prov r =
        (match prov.delResp cfId with
         | Except.error _ =>
           ⟨[Call.find (full_name_for_cf zone r.name), Call.del cfId],
             none, Outcome.caught⟩
         | Except.ok resp =>
           ⟨[Call.find (full_name_for_cf zone r.name), Call.del cfId],
             some resp, markOf resp⟩)) := by
  constructor
  · intro hp
    rw [processRecord_update_eq zone prov r data hb hp]
    unfold updateStep
    rw [hf]
  · intro hp
    rw [processRecord_delete_eq zone prov r data hb hp]
    unfold deleteStep
    rw [hf]

/-- Witness for the amended C3: with two matches for `updRec`'s normalized
name, the first id is the one replaced and the request is marked. -/
theorem c3_witness :
    processRecord "example.com" provAllOk updRec =
      ⟨[Call.find "www.example.com", Call.put "rid1" updPayloadFull],
        some ⟨200, some true⟩, Outcome.marked⟩ := by
  rw [(c3_first_match_submitted "example.com" provAllOk updRec
      ⟨"A", "www", 300, false, "5.6.7.8", none⟩ "rid1" ["rid2"]
      (by decide) (by decide)).1 (by decide)]
  decide

/-! ### Claim C4 -/

/-- Claim C4: MX content is split on the first space into an integer
priority and a target host: for any prefix without a space, parsing
`pre ++ " " ++ post` yields `(int(pre), post)` exactly when the prefix is
an integer (and fails otherwise); content without any space fails to
parse; and an MX request whose content fails to parse makes no provider
call and is never marked processed (the raised error, being uncaught,
aborts the iteration before any call). -/
theorem c4_mx_content_parsing :
    (∀ pre post : String, ' ' ∉ pre.data →
        parse_mx_content (pre ++ " " ++ post) =
          (pyInt pre).map (fun n => (n, post))) ∧
    (∀ s : String, ' ' ∉ s.data → parse_mx_content s = none) ∧
    (∀ (zone : String) (prov : Provider) (r : DnsRecord), strUpper r.rtype = "MX" →
        parse_mx_content r.content = none →
        processRecord zone prov r = ⟨[], none, Outcome.aborted⟩) := by
  refine ⟨?_, ?_, ?_⟩
  · intro pre post h
    unfold parse_mx_content
    rw [String.data_append, String.data_append]
    have hsp : (" " : String).data = [' '] := rfl
    rw [hsp, List.append_assoc, List.singleton_append,
      splitFirstSpace_append pre.data post.data h]
  · intro s h
    unfold parse_mx_content
    rw [splitFirstSpace_of_not_mem s.data h]
  · intro zone prov r hmx hparse
    have hb : buildPayload r = none := by
      simp [buildPayload, hmx, hparse]
    exact processRecord_aborted_shape zone prov r hb

/-- Witness for C4: content "10 mail.example.com" parses to priority 10
and target "mail.example.com"; content without a space fails; and the
malformed MX create request produces no provider call and no marking. -/
theorem c4_witness :
    parse_mx_content ("10" ++ " " ++ "mail.example.com") =
      some (10, "mail.example.com") ∧
    parse_mx_content "mail.example.com" = none ∧
    processRecord "example.com" provAllOk mxBadRec = ⟨[], none, Outcome.aborted⟩ := by
  refine ⟨?_, ?_, ?_⟩
  · rw [c4_mx_content_parsing.1 "10" "mail.example.com" (by decide)]
    decide
  · exact c4_mx_content_parsing.2.1 "mail.example.com" (by decide)
  · exact c4_mx_content_parsing.2.2 "example.com" provAllOk mxBadRec
      (by decide) (by decide)

/-! ### Claim C5 -/

/-- Claim C5: a create request makes only create calls and never more than
two of them; when the normalized `proxied` flag is false no retry happens
(exactly one call); and when the first call returns a rejection (JSON
`success` not truthy) and `proxied` was true, the adapter retries exactly
once, with `proxied` forced to false. -/
theorem c5_create_retry (zone : String) (prov : Provider) (r : DnsRecord) (data : Payload)
    (hb : buildPayload r = some data)
    (hp : strLower (r.perform.getD "create") = "create") :
    (processRecord zone prov r).calls.length ≤ 2 ∧
    (∀ c ∈ (processRecord zone prov r).calls, ∃ p, c = Call.create p) ∧
    (data.proxied = false → (processRecord zone prov r).calls = [Call.create data]) ∧
    (∀ resp, prov.createResp data = Except.ok resp → resp.success ≠ some true →
        data.proxied = true →
        (processRecord zone prov r).calls =
          [Call.create data, Call.create { data with proxied := false }]) := by
  rw [processRecord_create_eq zone prov r data hb hp]
  unfold createStep
  cases hcr : prov.createResp data with
  | error e => simp_all
  | ok resp =>
    dsimp only
    by_cases hc : ((resp.success != some true) && data.proxied) = true
    · rw [if_pos hc]
      cases hcr2 : prov.createResp { data with proxied := false } with
      | error e => simp_all [bne_iff_ne]
      | ok resp2 => simp_all [bne_iff_ne]
    · rw [if_neg hc]
      simp_all [bne_iff_ne]

/-- Witness for C5: a proxied A-record create against a provider that
rejects proxied payloads is retried exactly once with `proxied` false. -/
theorem c5_witness :
    (processRecord "example.com" provRejectProxied aProxRec).calls =
      [Call.create aProxPayload, Call.create { aProxPayload with proxied := false }] := by
  exact (c5_create_retry "example.com" provRejectProxied aProxRec aProxPayload
      (by decide) (by decide)).2.2.2 ⟨200, some false⟩ (by decide) (by decide) (by decide)

/-! ### Claim C6 -/

/-- Claim C6: an update or delete request whose name lookup succeeds with
zero matches takes the `continue` path: the only provider call is the
lookup itself (no replace, no delete), the outcome is `skipped` — never
`marked`, never `aborted` (no uncaught exception) — and the pass goes on
to process the remaining requests, leaving this row pending. -/
theorem c6_lookup_miss_skips (zone : String) (prov : Provider) (r : DnsRecord)
    (data : Payload) (rest : List DnsRecord)
    (hb : buildPayload r = some data)
    (hp : strLower (r.perform.getD "create") = "update" ∨
      strLower (r.perform.getD "create") = "delete")
    (hf : prov.findResp (full_name_for_cf zone r.name) = Except.ok []) :
    processRecord zone prov r =
      ⟨[Call.find (full_name_for_cf zone r.name)], none, Outcome.skipped⟩ ∧
    runPass zone prov (r :: rest) =
      ⟨r, false, [Call.find (full_name_for_cf zone r.name)], none⟩ ::
        runPass zone prov rest := by
  have h1 : processRecord zone prov r =
      ⟨[Call.find (full_name_for_cf zone r.name)], none, Outcome.skipped⟩ := by
    rcases hp with hp | hp
    · rw [processRecord_update_eq zone prov r data hb hp]
      unfold updateStep
      rw [hf]
    · rw [processRecord_delete_eq zone prov r data hb hp]
      unfold deleteStep
      rw [hf]
  refine ⟨h1, ?_⟩
  rw [runPass_cons_ok zone prov r rest (by simp [h1])]
  simp [h1]

/-- Witness for C6: an update against a provider with no matching records
makes only the lookup call, is skipped, and the pass continues. -/
theorem c6_witness :
    processRecord "example.com" provNoMatch updRec =
      ⟨[Call.find "www.example.com"], none, Outcome.skipped⟩ ∧
    runPass "example.com" provNoMatch [updRec, aCreateRec] =
      ⟨updRec, false, [Call.find "www.example.com"], none⟩ ::
        runPass "example.com" provNoMatch [aCreateRec] := by
  exact c6_lookup_miss_skips "example.com" provNoMatch updRec
    ⟨"A", "www", 300, false, "5.6.7.8", none⟩ [aCreateRec]
    (by decide) (Or.inl (by decide)) (by decide)

/-! ### Claim C7 -/

/-- Claim C7: the submitted payload's `proxied` flag is false for every
request whose (uppercased) record type is MX, TXT or NS regardless of the
request's stated value, and for every other record type it is the
request's `proxied` value (defaulting to false when absent), unchanged. -/
theorem c7_proxied_forced_false :
    (∀ (t : String) (p : Bool), (t = "MX" ∨ t = "TXT" ∨ t = "NS") →
        fix_proxied t p = false) ∧
    (∀ (t : String) (p : Bool), ¬(t = "MX" ∨ t = "TXT" ∨ t = "NS") →
        fix_proxied t p = p) ∧
    (∀ (r : DnsRecord) (data : Payload), buildPayload r = some data →
        (strUpper r.rtype = "MX" ∨ strUpper r.rtype = "TXT" ∨ strUpper r.rtype = "NS") →
        data.proxied = false) ∧
    (∀ (r : DnsRecord) (data : Payload), buildPayload r = some data →
        ¬(strUpper r.rtype = "MX" ∨ strUpper r.rtype = "TXT" ∨ strUpper r.rtype = "NS") →
        data.proxied = r.proxied.getD false) := by
  have hfix1 : ∀ (t : String) (p : Bool), (t = "MX" ∨ t = "TXT" ∨ t = "NS") →
      fix_proxied t p = false := by
    intro t p h
    unfold fix_proxied
    rw [if_pos h]
  have hfix2 : ∀ (t : String) (p : Bool), ¬(t = "MX" ∨ t = "TXT" ∨ t = "NS") →
      fix_proxied t p = p := by
    intro t p h
    unfold fix_proxied
    rw [if_neg h]
  refine ⟨hfix1, hfix2, ?_, ?_⟩
  · intro r data hb h
    rw [(buildPayload_fields r data hb).2.2.2]
    exact hfix1 _ _ h
  · intro r data hb h
    rw [(buildPayload_fields r data hb).2.2.2]
    exact hfix2 _ _ h

/-- Witness for C7: a TXT request with `proxied = true` is submitted with
`proxied = false`, while an A request keeps its stated `proxied = true`. -/
theorem c7_witness :
    (⟨"TXT", "note", 3600, false, "\"hello\"", none⟩ : Payload).proxied = false ∧
    (⟨"A", "app", 3600, true, "9.9.9.9", none⟩ : Payload).proxied =
      (aProxRec).proxied.getD false := by
  constructor
  · exact c7_proxied_forced_false.2.2.1 txtProxRec
      ⟨"TXT", "note", 3600, false, "\"hello\"", none⟩ (by decide)
      (Or.inr (Or.inl (by decide)))
  · exact c7_proxied_forced_false.2.2.2 aProxRec
      ⟨"A", "app", 3600, true, "9.9.9.9", none⟩ (by decide) (by decide)

/-! ### Claim C8 -/

/-- Claim C8: TXT content already wrapped in double quotes (first and last
character both a double quote) is left unchanged; unwrapped content is
wrapped in double quotes; the normalization is idempotent; and the TXT
branch of the payload construction applies exactly this normalization. -/
theorem c8_txt_quoting :
    (∀ s : String, (startswithQuote s && endswithQuote s) = true → quoteTxt s = s) ∧
    (∀ s : String, (startswithQuote s && endswithQuote s) = false →
        quoteTxt s = "\"" ++ s ++ "\"") ∧
    (∀ s : String, quoteTxt (quoteTxt s) = quoteTxt s) ∧
    (∀ (r : DnsRecord) (data : Payload), buildPayload r = some data →
        strUpper r.rtype = "TXT" → data.content = quoteTxt r.content) := by
  have h1 : ∀ s : String,
      (startswithQuote s && endswithQuote s) = true → quoteTxt s = s := by
    intro s h
    unfold quoteTxt
    rw [if_pos h]
  have h2 : ∀ s : String, (startswithQuote s && endswithQuote s) = false →
      quoteTxt s = "\"" ++ s ++ "\"" := by
    intro s h
    unfold quoteTxt
    rw [if_neg (by simp [h])]
  refine ⟨h1, h2, ?_, ?_⟩
  · intro s
    by_cases h : (startswithQuote s && endswithQuote s) = true
    · rw [h1 s h, h1 s h]
    · have hf : (startswithQuote s && endswithQuote s) = false := by
        cases hq : (startswithQuote s && endswithQuote s) with
        | false => rfl
        | true => exact absurd hq h
      rw [h2 s hf]
      exact h1 _ (by rw [startswithQuote_quoted, endswithQuote_quoted]; rfl)
  · intro r data hb ht
    exact buildPayload_txt_content r data hb ht

/-- Witness for C8: `hello` is wrapped, `"hello"` is unchanged, quoting is
idempotent at `hello`, and the TXT payload carries the quoted content. -/
theorem c8_witness :
    quoteTxt "hello" = "\"hello\"" ∧
    quoteTxt "\"hello\"" = "\"hello\"" ∧
    quoteTxt (quoteTxt "hello") = quoteTxt "hello" ∧
    (⟨"TXT", "note", 3600, false, "\"hello\"", none⟩ : Payload).content =
      quoteTxt (txtProxRec).content := by
  refine ⟨?_, ?_, ?_, ?_⟩
  · rw [c8_txt_quoting.2.1 "hello" (by decide)]
    decide
  · exact c8_txt_quoting.1 "\"hello\"" (by decide)
  · exact c8_txt_quoting.2.2.1 "hello"
  · exact c8_txt_quoting.2.2.2 txtProxRec
      ⟨"TXT", "note", 3600, false, "\"hello\"", none⟩ (by decide) (by decide)

/-! ### Claim C9 -/

/-- Claim C9: the lookup name for update/delete is the request name
unchanged when it already ends with the zone name, and otherwise the name
with "." and the zone appended; update/delete passes start with a lookup
of exactly that normalized name, while create submits payloads whose name
is the request's name as given. -/
theorem c9_name_normalization :
    (∀ zone name : String, endswith name zone = true →
        full_name_for_cf zone name = name) ∧
    (∀ zone name : String, endswith name zone = false →
        full_name_for_cf zone name = name ++ "." ++ zone) ∧
    (∀ (r : DnsRecord) (data : Payload), buildPayload r = some data →
        data.name = r.name) ∧
    (∀ (zone : String) (prov : Provider) (r : DnsRecord) (data : Payload),
        buildPayload r = some data →
        strLower (r.perform.getD "create") = "create" →
        ∀ c ∈ (processRecord zone prov r).calls,
          ∃ p : Payload, c = Call.create p ∧ p.name = r.name) ∧
    (∀ (zone : String) (prov : Provider) (r : DnsRecord) (data : Payload),
        buildPayload r = some data →
        (strLower (r.perform.getD "create") = "update" ∨
         strLower (r.perform.getD "create") = "delete") →
        (processRecord zone prov r).calls.head? =
          some (Call.find (full_name_for_cf zone r.name))) := by
  refine ⟨?_, ?_, ?_, ?_, ?_⟩
  · intro zone name h
    unfold full_name_for_cf
    rw [if_pos h]
  · intro zone name h
    unfold full_name_for_cf
    rw [if_neg (by simp [h])]
  · intro r data hb
    exact (buildPayload_fields r data hb).2.1
  · intro zone prov r data hb hp c hc
    rw [processRecord_create_eq zone prov r data hb hp] at hc
    obtain ⟨p, hcp, hpname⟩ := createStep_calls_names prov data c hc
    exact ⟨p, hcp, by rw [hpname, (buildPayload_fields r data hb).2.1]⟩
  · intro zone prov r data hb hp
    rcases hp with hp | hp
    · rw [processRecord_update_eq zone prov r data hb hp]
      exact updateStep_head_find prov _ data
    · rw [processRecord_delete_eq zone prov r data hb hp]
      exact deleteStep_head_find prov _

/-- Witness for C9: "www" gains the zone suffix, "www.example.com" is
unchanged, the create call for `aCreateRec` submits the name as given, and
the update pass for `updRec` starts by looking up the normalized name. -/
theorem c9_witness :
    full_name_for_cf "example.com" "www" = "www" ++ "." ++ "example.com" ∧
    full_name_for_cf "example.com" "www.example.com" = "www.example.com" ∧
    (∃ p : Payload, Call.create aCreatePayload = Call.create p ∧ p.name = "www") ∧
    (processRecord "example.com" provAllOk updRec).calls.head? =
      some (Call.find "www.example.com") := by
  refine ⟨?_, ?_, ?_, ?_⟩
  · exact c9_name_normalization.2.1 "example.com" "www" (by decide)
  · exact c9_name_normalization.1 "example.com" "www.example.com" (by decide)
  · exact c9_name_normalization.2.2.2.1 "example.com" provAllOk aCreateRec
      aCreatePayload (by decide) (by decide) (Call.create aCreatePayload) (by decide)
  · exact c9_name_normalization.2.2.2.2 "example.com" provAllOk updRec
      ⟨"A", "www", 300, false, "5.6.7.8", none⟩ (by decide) (Or.inl (by decide))

/-! ### Claim C10 -/

/-- Counterexample to C10 as stated: a request whose lowercased perform is
"archive" (not create/update/delete) but whose record is a malformed MX
does not let the pass continue: the payload construction raises before the
perform dispatch, the pass aborts, and the following request is never
attempted (no calls, not marked), though alone it would succeed. -/
theorem c10_counterexample :
    strLower ((unkMxBadRec).perform.getD "create") = "archive" ∧
    runPass "example.com" provAllOk [unkMxBadRec, aCreateRec] =
      [⟨unkMxBadRec, false, [], none⟩, ⟨aCreateRec, false, [], none⟩] ∧
    runPass "example.com" provAllOk [aCreateRec] =
      [⟨aCreateRec, true, [Call.create aCreatePayload], some ⟨200, some true⟩⟩] := by
  exact ⟨by decide, by decide, by decide⟩

/-- Claim C10 (amended): for every pending request whose payload
normalization succeeds and whose lowercased operation is none of create,
update or delete, the engine makes no provider call, leaves the request
unmarked (pending), and continues with the remaining requests of the
pass. -/
theorem c10_unknown_perform_skips (zone : String) (prov : Provider) (r : DnsRecord)
    (data : Payload) (rest : List DnsRecord)
    (hb : buildPayload r = some data)
    (h1 : strLower (r.perform.getD "create") ≠ "create")
    (h2 : strLower (r.perform.getD "create") ≠ "update")
    (h3 : strLower (r.perform.getD "create") ≠ "delete") :
    processRecord zone prov r = ⟨[], none, Outcome.skipped⟩ ∧
    runPass zone prov (r :: rest) =
      ⟨r, false, [], none⟩ :: runPass zone prov rest := by
  have h0 := processRecord_unknown_eq zone prov r data hb h1 h2 h3
  refine ⟨h0, ?_⟩
  rw [runPass_cons_ok zone prov r rest (by simp [h0])]
  simp [h0]

/-- Witness for the amended C10: perform "Archive" on a well-formed A
record is skipped with no provider call and the pass continues. -/
theorem c10_witness :
    processRecord "example.com" provAllOk unkRec = ⟨[], none, Outcome.skipped⟩ ∧
    runPass "example.com" provAllOk (unkRec :: [aCreateRec]) =
      ⟨unkRec, false, [], none⟩ :: runPass "example.com" provAllOk [aCreateRec] :=
  c10_unknown_perform_skips "example.com" provAllOk unkRec
    ⟨"A", "cdn", 3600, false, "8.8.8.8", none⟩ [aCreateRec]
    (by decide) (by decide) (by decide) (by decide)

end DnsSync
